import Mathlib

/-!
Verification of the card-game round engine of this repository.

The engine under study is the `GameplayService` class (the complete revision,
referred to below as "the engine"), together with the newer partial revision of
`startGame` (referred to below as `startGameV2`) and the types in
`types/game.ts` / `types/gameplay.ts`.

The Firestore game document is modelled as a pure `GameState` value; JavaScript
objects (`players`, `rounds`, `submissions`, `playerHands`) are modelled as
insertion-ordered association lists, matching `Object.keys` enumeration order.
Randomness (`Math.random`) is made explicit: each operation takes the random
draws it consumes as extra arguments (an index for the initial dealer, a stream
of indices for the next-black-card loop).  Firestore reads of the card catalog
are modelled by explicit list arguments (the shuffled id sequences fetched at
`startGame`) and a `pickOf` function resolving a black card id to its pick
count (`createBlackCard`).  Server timestamps are irrelevant to the claims and
are dropped; `submittedAt` keeps an abstract clock value.
-/

namespace SesGame

abbrev PlayerId := String
abbrev CardId := String

/-! ### Association-list helpers (JavaScript object semantics) -/

/-- `Object.keys`, in insertion order. -/
def keysOf (l : List (α × β)) : List α := l.map Prod.fst

/-- Lookup `obj[k]`. -/
def alookup [DecidableEq α] (k : α) : List (α × β) → Option β
  | [] => none
  | (a, b) :: t => if a = k then some b else alookup k t

/-- Assignment `obj[k] = v`: overwrite in place if the key exists, else append. -/
def setk [DecidableEq α] (k : α) (v : β) : List (α × β) → List (α × β)
  | [] => [(k, v)]
  | (a, b) :: t => if a = k then (a, v) :: t else (a, b) :: setk k v t

/-- Update the value at an existing key, leaving the object unchanged otherwise. -/
def updk [DecidableEq α] (k : α) (f : β → β) : List (α × β) → List (α × β)
  | [] => []
  | (a, b) :: t => if a = k then (a, f b) :: t else (a, b) :: updk k f t

@[simp] theorem alookup_nil [DecidableEq α] (k : α) :
    alookup (β := β) k [] = none := rfl

@[simp] theorem alookup_cons [DecidableEq α] (k a : α) (b : β) (t : List (α × β)) :
    alookup k ((a, b) :: t) = if a = k then some b else alookup k t := rfl

@[simp] theorem keysOf_nil : keysOf ([] : List (α × β)) = [] := rfl

@[simp] theorem keysOf_cons (p : α × β) (t : List (α × β)) :
    keysOf (p :: t) = p.1 :: keysOf t := rfl

@[simp] theorem setk_nil [DecidableEq α] (k : α) (v : β) :
    setk k v [] = [(k, v)] := rfl

@[simp] theorem setk_cons [DecidableEq α] (k a : α) (v b : β) (t : List (α × β)) :
    setk k v ((a, b) :: t) = if a = k then (a, v) :: t else (a, b) :: setk k v t := rfl

@[simp] theorem updk_nil [DecidableEq α] (k : α) (f : β → β) :
    updk k f [] = [] := rfl

@[simp] theorem updk_cons [DecidableEq α] (k a : α) (f : β → β) (b : β) (t : List (α × β)) :
    updk k f ((a, b) :: t) = if a = k then (a, f b) :: t else (a, b) :: updk k f t := rfl

/-! ### Data model (`types/game.ts`, `types/gameplay.ts`) -/

inductive GameStatus
  | lobby
  | playing
  | ended
  | cancelled
deriving DecidableEq, Repr

inductive PlayerStatus
  | joined
  | ready
  | playing
  | spectating
  | disconnected
deriving DecidableEq, Repr

inductive RoundPhase
  | dealing
  | submitting
  | judging
  | revealing
  | complete
deriving DecidableEq, Repr

structure BlackCard where
  id : CardId
  pick : Nat
deriving DecidableEq, Repr

structure PlayerSubmission where
  playerId : PlayerId
  cards : List CardId
  submittedAt : Nat
deriving DecidableEq, Repr

structure GamePlayer where
  status : PlayerStatus
  isHost : Bool
  score : Nat
deriving DecidableEq, Repr

structure GameSettings where
  roundsPerPlayer : Nat
  cardsPerPlayer : Option Nat
  minPlayers : Option Nat
deriving DecidableEq, Repr

structure GameRound where
  roundNumber : Nat
  phase : RoundPhase
  blackCard : BlackCard
  dealerId : PlayerId
  submissions : List (PlayerId × PlayerSubmission)
  winnerId : Option PlayerId
  submissionDeadline : Option Nat
deriving DecidableEq, Repr

structure CardDeckState where
  blackCards : List CardId
  whiteCards : List CardId
  discardedBlackCards : List CardId
  discardedWhiteCards : List CardId
deriving DecidableEq, Repr

structure GameState where
  status : GameStatus
  hostId : PlayerId
  settings : GameSettings
  players : List (PlayerId × GamePlayer)
  currentRound : Nat
  currentDealerId : PlayerId
  rounds : List (Nat × GameRound)
  playerHands : List (PlayerId × List CardId)
  cardDeck : CardDeckState
  playedBlackCards : List CardId
deriving DecidableEq, Repr

/-- The distinct failure returns of the engine, one constructor per
`return { success: false, error: ... }` site (kinds, not message strings). -/
inductive GameplayError
  | notHost
  | notInLobby
  | insufficientPlayers
  | playersNotReady
  | noCards
  | insufficientWhiteCards
  | gameNotPlaying
  | notCurrentRound
  | playerNotInGame
  | dealerCannotSubmit
  | notSubmittingPhase
  | alreadySubmitted
  | cardNotInHand
  | wrongCardCount
  | notDealer
  | notJudgingPhase
  | invalidWinner
  | outOfBlackCards
deriving DecidableEq, Repr

/-! ### Small JavaScript / Firestore primitives -/

/-- JavaScript `x || d` for an optional numeric setting (`0` is falsy). -/
def jsOr (o : Option Nat) (d : Nat) : Nat :=
  match o with
  | some n => if n = 0 then d else n
  | none => d

/-- Firestore `arrayRemove(...items)`: removes every occurrence of the items. -/
def arrayRemove (l items : List CardId) : List CardId :=
  l.filter (fun c => decide (c ∉ items))

/-- Firestore `arrayUnion(...items)`: appends each item not already present. -/
def arrayUnion (l items : List CardId) : List CardId :=
  items.foldl (fun acc c => if c ∈ acc then acc else acc ++ [c]) l

/-- `Array.prototype.indexOf` returning an option instead of `-1`. -/
def idxOf [DecidableEq α] (a : α) : List α → Option Nat
  | [] => none
  | b :: t => if b = a then some 0 else (idxOf a t).map (· + 1)

/-! ### Dealing and drawing helpers -/

/-- The dealing loop of `startGame`: each player in order takes
`splice(0, n)` from the front of the white-card sequence (which silently
takes fewer when the sequence runs short), returning the hands in player
order and the remaining sequence. -/
def dealHands (n : Nat) : List PlayerId → List CardId →
    List (PlayerId × List CardId) × List CardId
  | [], ws => ([], ws)
  | p :: ps, ws =>
    let h := ws.take n
    let r := dealHands n ps (ws.drop n)
    ((p, h) :: r.1, r.2)

/-- The next-black-card loop of `selectWinner`: repeatedly pick a random
index (the head of `rs`) into the remaining black cards; take the card if it
has not been played, else count a failed attempt; give up at 50 attempts or
on an empty pool.  The pool is only mutated (`splice(randomIndex, 1)`) on
success, exactly as in the source. -/
def pickBlack (deck played : List CardId) : List Nat → Nat → Option (CardId × List CardId)
  | [], _ => none
  | r :: rs, attempts =>
    if attempts ≥ 50 then none
    else if h : deck.length = 0 then none
    else
      let i := r % deck.length
      let c := deck.get ⟨i, Nat.mod_lt _ (Nat.pos_of_ne_zero h)⟩
      if c ∈ played then pickBlack deck played rs (attempts + 1)
      else some (c, deck.eraseIdx i)

/-- One `playerHands.${p}: arrayUnion(...)` write.  Firestore creates the
array field when it is missing, hence the append branch. -/
def handUnion (p : PlayerId) (toAdd : List CardId)
    (hands : List (PlayerId × List CardId)) : List (PlayerId × List CardId) :=
  if p ∈ keysOf hands then updk p (fun h => arrayUnion h toAdd) hands
  else hands ++ [(p, arrayUnion [] toAdd)]

/-- The replenishment loop of `selectWinner`: for each submitter, in
submission order, `splice` as many white cards from the pool as that player
submitted and `arrayUnion` them into the player's hand. -/
def replenish : List (PlayerId × PlayerSubmission) → List CardId →
    List (PlayerId × List CardId) → List (PlayerId × List CardId) × List CardId
  | [], ws, hands => (hands, ws)
  | (p, sub) :: rest, ws, hands =>
    let toAdd := ws.take sub.cards.length
    replenish rest (ws.drop sub.cards.length) (handUnion p toAdd hands)

/-! ### `GameplayService.startGame` (complete revision)

Checks, in source order: host, lobby status, at least 3 players, readiness
(`status === READY || isHost`), then inside the transaction the fetched card
id lists must both be nonempty; the first dealer is drawn at random from the
player list; every player takes `splice(0, 7)` white cards; the first black
card is `shift()`ed; round 1 is created in the `DEALING` phase. -/

/-- The first dealer: the player at the random index `rIdx` of the player
list (`Math.floor(Math.random() * playerIds.length)`). -/
def firstDealerOf (s : GameState) (rIdx : Nat) : PlayerId :=
  (keysOf s.players).getD (rIdx % (keysOf s.players).length) ""

/-- Round 1 as created by `startGame`: `DEALING` phase, the first black
card, the randomly drawn dealer, no submissions. -/
def startRound1 (s : GameState) (b : CardId) (rIdx : Nat)
    (pickOf : CardId → Nat) : GameRound :=
  { roundNumber := 1, phase := RoundPhase.dealing,
    blackCard := ⟨b, pickOf b⟩, dealerId := firstDealerOf s rIdx,
    submissions := [], winnerId := none, submissionDeadline := none }

/-- The state committed by `startGame`'s transaction: the first dealer drawn
at index `rIdx` of the player list, 7-card hands spliced from the shuffled
white sequence, the first black card shifted from the black sequence, round 1
in the `DEALING` phase, everyone `PLAYING`. -/
def startPost (s : GameState) (b : CardId) (bsRest ws : List CardId)
    (rIdx : Nat) (pickOf : CardId → Nat) : GameState :=
  { s with
    status := GameStatus.playing,
    currentRound := 1,
    currentDealerId := firstDealerOf s rIdx,
    rounds := [(1, startRound1 s b rIdx pickOf)],
    playerHands := (dealHands 7 (keysOf s.players) ws).1,
    cardDeck := ⟨bsRest, (dealHands 7 (keysOf s.players) ws).2, [], []⟩,
    playedBlackCards := [b],
    players := s.players.map (fun pp =>
      (pp.1, { pp.2 with status := PlayerStatus.playing })) }

def startGame (s : GameState) (hostId : PlayerId) (bs ws : List CardId)
    (rIdx : Nat) (pickOf : CardId → Nat) : Except GameplayError GameState :=
  if s.hostId ≠ hostId then .error .notHost
  else if s.status ≠ GameStatus.lobby then .error .notInLobby
  else if s.players.length < 3 then .error .insufficientPlayers
  else if ¬ s.players.all (fun pp =>
      decide (pp.2.status = PlayerStatus.ready ∨ pp.2.isHost = true)) then
    .error .playersNotReady
  else
    match bs with
    | [] => .error .noCards
    | b :: bsRest =>
      if ws.isEmpty then .error .noCards
      else .ok (startPost s b bsRest ws rIdx pickOf)

/-! ### `GameplayService.submitCards` (complete revision)

Checks, in source order: game playing, current round, player in game,
player is not the dealer, round exists and is in `SUBMITTING` phase, player
has not already submitted, every submitted id is in the player's hand, the
number of ids equals the black card's pick count.  On success the submission
is recorded, the ids are `arrayRemove`d from the hand, and the phase moves
to `JUDGING` when the pre-state submission count plus one equals the number
of non-dealer players. -/

/-- The round after a successful `submitCards`: the submission recorded
under the player's key, and the phase moved to `JUDGING` when the pre-state
submission count plus this one equals the count of non-dealer players
(`Object.keys(round.submissions).concat(playerId)` against
`playerIds.filter(id => id !== currentDealerId)`). -/
def submitRound (s : GameState) (playerId : PlayerId) (cardIds : List CardId)
    (now : Nat) (round : GameRound) : GameRound :=
  { round with
    submissions := setk playerId ⟨playerId, cardIds, now⟩ round.submissions
    phase :=
      if (keysOf round.submissions).length + 1 =
          ((keysOf s.players).filter (fun id => decide (id ≠ s.currentDealerId))).length
      then RoundPhase.judging else round.phase }

/-- The writes committed by a successful `submitCards`: the updated round
and the `arrayRemove` of the submitted ids from the stored hand. -/
def submitPost (s : GameState) (playerId : PlayerId) (roundNumber : Nat)
    (cardIds : List CardId) (now : Nat) (round : GameRound) : GameState :=
  { s with
    rounds := setk roundNumber (submitRound s playerId cardIds now round) s.rounds
    playerHands :=
      setk playerId
        (arrayRemove ((alookup playerId s.playerHands).getD []) cardIds)
        s.playerHands }

def submitCards (s : GameState) (playerId : PlayerId) (roundNumber : Nat)
    (cardIds : List CardId) (now : Nat) : Except GameplayError GameState :=
  if s.status ≠ GameStatus.playing then .error .gameNotPlaying
  else if s.currentRound ≠ roundNumber then .error .notCurrentRound
  else if (alookup playerId s.players).isNone then .error .playerNotInGame
  else if s.currentDealerId = playerId then .error .dealerCannotSubmit
  else
    match alookup roundNumber s.rounds with
    | none => .error .notSubmittingPhase
    | some round =>
      if round.phase ≠ RoundPhase.submitting then .error .notSubmittingPhase
      else if (alookup playerId round.submissions).isSome then .error .alreadySubmitted
      else if ¬ cardIds.all
          (fun c => decide (c ∈ (alookup playerId s.playerHands).getD [])) then
        .error .cardNotInHand
      else if cardIds.length ≠ round.blackCard.pick then .error .wrongCardCount
      else .ok (submitPost s playerId roundNumber cardIds now round)

/-! ### `GameplayService.selectWinner` (complete revision) -/

/-- The round-completion write: `phase: COMPLETE`, `winnerId`. -/
def completeRound (round : GameRound) (w : PlayerId) : GameRound :=
  { round with phase := RoundPhase.complete, winnerId := some w }

/-- `players.${winnerId}.score: increment(1)`. -/
def scoreWinner (w : PlayerId) (players : List (PlayerId × GamePlayer)) :
    List (PlayerId × GamePlayer) :=
  updk w (fun pl => { pl with score := pl.score + 1 }) players

/-- Post-state of `selectWinner` when the game ends
(`roundNumber >= roundsPerPlayer * playerCount`). -/
def selectWinnerEnded (s : GameState) (rn : Nat) (w : PlayerId)
    (round : GameRound) : GameState :=
  { s with status := GameStatus.ended,
           players := scoreWinner w s.players,
           rounds := setk rn (completeRound round w) s.rounds }

/-- The next-dealer computation: `(playerIds.indexOf(dealerId) + 1) % playerIds.length`;
a missing dealer gives JavaScript index `-1`, hence next index `0`. -/
def nextDealerIdOf (ids : List PlayerId) (d : PlayerId) : PlayerId :=
  let nextIdx :=
    match idxOf d ids with
    | some i => (i + 1) % ids.length
    | none => 0 % ids.length
  ids.getD nextIdx ""

/-- The round created for the next cycle: `DEALING` phase, the freshly
drawn black card, the rotated dealer, empty submissions. -/
def nextRoundOf (s : GameState) (d : PlayerId) (rn : Nat) (c : CardId)
    (pickOf : CardId → Nat) : GameRound :=
  { roundNumber := rn + 1, phase := RoundPhase.dealing,
    blackCard := ⟨c, pickOf c⟩, dealerId := nextDealerIdOf (keysOf s.players) d,
    submissions := [], winnerId := none, submissionDeadline := none }

/-- Post-state of `selectWinner` when a next round is created: score the
winner, complete round `rn`, rotate the dealer, create round `rn + 1` in the
`DEALING` phase with the freshly drawn black card, replenish the submitters'
hands from the white pool, discard the finished prompt and mark the new one
played. -/
def selectWinnerNext (s : GameState) (d : PlayerId) (rn : Nat) (w : PlayerId)
    (round : GameRound) (c : CardId) (deckAfter : List CardId)
    (pickOf : CardId → Nat) : GameState :=
  { s with players := scoreWinner w s.players,
           currentRound := rn + 1,
           currentDealerId := nextDealerIdOf (keysOf s.players) d,
           rounds := setk (rn + 1) (nextRoundOf s d rn c pickOf)
             (setk rn (completeRound round w) s.rounds),
           playerHands :=
             (replenish round.submissions s.cardDeck.whiteCards s.playerHands).1,
           cardDeck := { blackCards := deckAfter,
                         whiteCards :=
                           (replenish round.submissions s.cardDeck.whiteCards
                             s.playerHands).2,
                         discardedBlackCards :=
                           arrayUnion s.cardDeck.discardedBlackCards [round.blackCard.id],
                         discardedWhiteCards := s.cardDeck.discardedWhiteCards },
           playedBlackCards := arrayUnion s.playedBlackCards [c] }

/-- The black pool the next-card loop draws from: the stored remaining
black cards, or — when that array is empty — the re-queried deck filtered
against `playedBlackCards` (list order standing in for the shuffle). -/
def blackPool (s : GameState) (refetch : List CardId) : List CardId :=
  if s.cardDeck.blackCards.isEmpty
  then refetch.filter (fun c => decide (c ∉ s.playedBlackCards))
  else s.cardDeck.blackCards

/-- `GameplayService.selectWinner`.  Checks, in source order: game playing,
current round, caller is the dealer, round exists and is in `JUDGING` phase,
`winnerId` keys a submission.  The whole transaction (including the score
and phase writes) aborts when the black-card loop finds no unplayed card.
`rs` is the stream of random indices the loop consumes; `refetch` is the
result of the re-query the source issues when the black pool is empty
(filtered against `playedBlackCards`, order standing in for the shuffle). -/
def selectWinner (s : GameState) (dealerId : PlayerId) (roundNumber : Nat)
    (winnerId : PlayerId) (rs : List Nat) (refetch : List CardId)
    (pickOf : CardId → Nat) : Except GameplayError GameState :=
  if s.status ≠ GameStatus.playing then .error .gameNotPlaying
  else if s.currentRound ≠ roundNumber then .error .notCurrentRound
  else if s.currentDealerId ≠ dealerId then .error .notDealer
  else
    match alookup roundNumber s.rounds with
    | none => .error .notJudgingPhase
    | some round =>
      if round.phase ≠ RoundPhase.judging then .error .notJudgingPhase
      else if (alookup winnerId round.submissions).isNone then .error .invalidWinner
      else if roundNumber ≥ s.settings.roundsPerPlayer * s.players.length then
        .ok (selectWinnerEnded s roundNumber winnerId round)
      else
        match pickBlack (blackPool s refetch) s.playedBlackCards rs 0 with
        | none => .error .outOfBlackCards
        | some (c, deckAfter) =>
          .ok (selectWinnerNext s dealerId roundNumber winnerId round c deckAfter pickOf)

/-! ### `startGame`, newer revision (`startGameV2`)

The newer `GameplayService` revision validates the host, the minimum player
count, a nonempty black pool, and that the white pool holds at least
`numPlayers * (settings.cardsPerPlayer || 7)` cards — failing before any
write — then deals the configured hand size to every player, picks the FIRST
player as the initial judge, and creates round 1 in the `SUBMITTING` phase.
Its `submitCards` / `selectWinner` are unimplemented stubs, so only the
start-of-game outcome is modelled. -/

structure StartGameV2Out where
  currentJudgeId : PlayerId
  firstRoundPhase : RoundPhase
  playerHands : List (PlayerId × List CardId)
  status : GameStatus
deriving DecidableEq, Repr

def DEFAULT_CARDS_PER_PLAYER : Nat := 7

def startGameV2 (s : GameState) (hostId : PlayerId) (bs ws : List CardId) :
    Except GameplayError StartGameV2Out :=
  if s.hostId ≠ hostId then .error .notHost
  else if (keysOf s.players).length < jsOr s.settings.minPlayers 3 then
    .error .insufficientPlayers
  else if bs.isEmpty then .error .noCards
  else if ws.length <
      (keysOf s.players).length * jsOr s.settings.cardsPerPlayer DEFAULT_CARDS_PER_PLAYER then
    .error .insufficientWhiteCards
  else
    .ok { currentJudgeId := (keysOf s.players).getD 0 "",
          firstRoundPhase := RoundPhase.submitting,
          playerHands :=
            (dealHands (jsOr s.settings.cardsPerPlayer DEFAULT_CARDS_PER_PLAYER)
              (keysOf s.players) ws).1,
          status := GameStatus.playing }

/-! ### Reachability

States reachable from a lobby-stage game document (created by the lobby
service: no rounds, no hands, no deck state) under any sequence of the three
engine operations.  A failed operation returns its error before any write,
so failures do not change the state and need no step constructor.
`DeckFetchOK` records that Firestore document ids are unique within a
collection and that the black and white card collections hold disjoint id
pools. -/

def InitLobby (s : GameState) : Prop :=
  s.status = GameStatus.lobby ∧ s.rounds = [] ∧ s.playerHands = [] ∧
  s.cardDeck = ⟨[], [], [], []⟩ ∧ s.playedBlackCards = []

def DeckFetchOK (bs ws : List CardId) : Prop :=
  bs.Nodup ∧ ws.Nodup ∧ ∀ c ∈ bs, c ∉ ws

inductive Reachable : GameState → Prop
  | init (s : GameState) : InitLobby s → Reachable s
  | start (s : GameState) (hostId : PlayerId) (bs ws : List CardId) (rIdx : Nat)
      (pickOf : CardId → Nat) (s2 : GameState) :
      Reachable s → DeckFetchOK bs ws →
      startGame s hostId bs ws rIdx pickOf = .ok s2 → Reachable s2
  | submit (s : GameState) (p : PlayerId) (rn : Nat) (cs : List CardId) (now : Nat)
      (s2 : GameState) :
      Reachable s → submitCards s p rn cs now = .ok s2 → Reachable s2
  | select (s : GameState) (d : PlayerId) (rn : Nat) (w : PlayerId) (rs : List Nat)
      (refetch : List CardId) (pickOf : CardId → Nat) (s2 : GameState) :
      Reachable s → selectWinner s d rn w rs refetch pickOf = .ok s2 → Reachable s2

/-! ### Success characterizations -/

theorem startGame_ok {s : GameState} {hostId : PlayerId} {bs ws : List CardId}
    {rIdx : Nat} {pickOf : CardId → Nat} {s2 : GameState}
    (h : startGame s hostId bs ws rIdx pickOf = .ok s2) :
    s.hostId = hostId ∧ s.status = GameStatus.lobby ∧ 3 ≤ s.players.length ∧
    ∃ b bsRest, bs = b :: bsRest ∧ ws.isEmpty = false ∧
      s2 = startPost s b bsRest ws rIdx pickOf := by
  unfold startGame at h
  split at h
  · exact Except.noConfusion h
  next h1 =>
  split at h
  · exact Except.noConfusion h
  next h2 =>
  split at h
  · exact Except.noConfusion h
  next h3 =>
  split at h
  · exact Except.noConfusion h
  next h4 =>
  split at h
  · exact Except.noConfusion h
  next b bsRest =>
  split at h
  · exact Except.noConfusion h
  next h5 =>
  cases h
  exact ⟨not_ne_iff.mp h1, not_ne_iff.mp h2, Nat.not_lt.mp h3,
    b, bsRest, rfl, Bool.not_eq_true _ ▸ eq_false_of_ne_true h5, rfl⟩

theorem submitCards_ok {s : GameState} {p : PlayerId} {rn : Nat}
    {cardIds : List CardId} {now : Nat} {s2 : GameState}
    (h : submitCards s p rn cardIds now = .ok s2) :
    s.status = GameStatus.playing ∧ s.currentRound = rn ∧
    (alookup p s.players).isNone = false ∧ s.currentDealerId ≠ p ∧
    ∃ round, alookup rn s.rounds = some round ∧
      round.phase = RoundPhase.submitting ∧
      (alookup p round.submissions).isSome = false ∧
      cardIds.all (fun c => decide (c ∈ (alookup p s.playerHands).getD [])) = true ∧
      cardIds.length = round.blackCard.pick ∧
      s2 = submitPost s p rn cardIds now round := by
  unfold submitCards at h
  split at h
  · exact Except.noConfusion h
  next h1 =>
  split at h
  · exact Except.noConfusion h
  next h2 =>
  split at h
  · exact Except.noConfusion h
  next h3 =>
  split at h
  · exact Except.noConfusion h
  next h4 =>
  split at h
  · exact Except.noConfusion h
  next round hround =>
  split at h
  · exact Except.noConfusion h
  next h5 =>
  split at h
  · exact Except.noConfusion h
  next h6 =>
  split at h
  · exact Except.noConfusion h
  next h7 =>
  split at h
  · exact Except.noConfusion h
  next h8 =>
  cases h
  exact ⟨not_ne_iff.mp h1, not_ne_iff.mp h2, eq_false_of_ne_true h3, h4,
    round, hround, not_ne_iff.mp h5, eq_false_of_ne_true h6,
    not_not.mp h7, not_ne_iff.mp h8, rfl⟩

theorem selectWinner_ok {s : GameState} {d : PlayerId} {rn : Nat} {w : PlayerId}
    {rs : List Nat} {refetch : List CardId} {pickOf : CardId → Nat} {s2 : GameState}
    (h : selectWinner s d rn w rs refetch pickOf = .ok s2) :
    s.status = GameStatus.playing ∧ s.currentRound = rn ∧ s.currentDealerId = d ∧
    ∃ round, alookup rn s.rounds = some round ∧ round.phase = RoundPhase.judging ∧
      (alookup w round.submissions).isNone = false ∧
      ((s.settings.roundsPerPlayer * s.players.length ≤ rn ∧
          s2 = selectWinnerEnded s rn w round) ∨
       (¬ s.settings.roundsPerPlayer * s.players.length ≤ rn ∧
          ∃ c deckAfter,
            pickBlack (blackPool s refetch) s.playedBlackCards rs 0 = some (c, deckAfter) ∧
            s2 = selectWinnerNext s d rn w round c deckAfter pickOf)) := by
  unfold selectWinner at h
  split at h
  · exact Except.noConfusion h
  next h1 =>
  split at h
  · exact Except.noConfusion h
  next h2 =>
  split at h
  · exact Except.noConfusion h
  next h3 =>
  split at h
  · exact Except.noConfusion h
  next round hround =>
  split at h
  · exact Except.noConfusion h
  next h4 =>
  split at h
  · exact Except.noConfusion h
  next h5 =>
  split at h
  next h6 =>
    cases h
    exact ⟨not_ne_iff.mp h1, not_ne_iff.mp h2, not_ne_iff.mp h3,
      round, hround, not_ne_iff.mp h4, eq_false_of_ne_true h5,
      Or.inl ⟨h6, rfl⟩⟩
  next h6 =>
    split at h
    · exact Except.noConfusion h
    next c deckAfter hpick =>
    cases h
    exact ⟨not_ne_iff.mp h1, not_ne_iff.mp h2, not_ne_iff.mp h3,
      round, hround, not_ne_iff.mp h4, eq_false_of_ne_true h5,
      Or.inr ⟨h6, c, deckAfter, hpick, rfl⟩⟩

/-! ### Association-list lemmas -/

theorem alookup_setk_self [DecidableEq α] (k : α) (v : β) (l : List (α × β)) :
    alookup k (setk k v l) = some v := by
  induction l with
  | nil => simp [setk, alookup]
  | cons hd tl ih =>
    obtain ⟨a, b⟩ := hd
    by_cases hak : a = k
    · simp [setk, alookup, hak]
    · simp [setk, alookup, hak, ih]

theorem alookup_setk_ne [DecidableEq α] {a k : α} (hak : a ≠ k) (v : β)
    (l : List (α × β)) : alookup k (setk a v l) = alookup k l := by
  induction l with
  | nil => simp [setk, alookup, hak]
  | cons hd tl ih =>
    obtain ⟨x, y⟩ := hd
    by_cases hxa : x = a
    · subst hxa
      simp [setk, alookup, hak]
    · simp [setk, alookup, hxa, ih]

theorem alookup_updk_self [DecidableEq α] (k : α) (f : β → β) (l : List (α × β)) :
    alookup k (updk k f l) = (alookup k l).map f := by
  induction l with
  | nil => simp [updk, alookup]
  | cons hd tl ih =>
    obtain ⟨a, b⟩ := hd
    by_cases hak : a = k
    · simp [updk, alookup, hak]
    · simp [updk, alookup, hak, ih]

theorem alookup_updk_ne [DecidableEq α] {a k : α} (hak : a ≠ k) (f : β → β)
    (l : List (α × β)) : alookup k (updk a f l) = alookup k l := by
  induction l with
  | nil => simp [updk, alookup]
  | cons hd tl ih =>
    obtain ⟨x, y⟩ := hd
    by_cases hxa : x = a
    · subst hxa
      simp [updk, alookup, hak, ih]
    · simp [updk, alookup, hxa, ih]

theorem alookup_eq_none [DecidableEq α] {k : α} {l : List (α × β)} :
    alookup k l = none ↔ k ∉ keysOf l := by
  induction l with
  | nil => simp [alookup, keysOf]
  | cons hd tl ih =>
    obtain ⟨a, b⟩ := hd
    by_cases hak : a = k
    · simp [alookup, keysOf, hak]
    · simp [alookup, keysOf, hak, ih, Ne.symm hak]

theorem alookup_mem [DecidableEq α] {k : α} {v : β} {l : List (α × β)}
    (h : alookup k l = some v) : (k, v) ∈ l := by
  induction l with
  | nil => simp [alookup] at h
  | cons hd tl ih =>
    obtain ⟨a, b⟩ := hd
    by_cases hak : a = k
    · subst hak
      simp [alookup] at h
      simp [h]
    · simp [alookup, hak] at h
      exact List.mem_cons_of_mem _ (ih h)

theorem mem_setk [DecidableEq α] {x : α × β} {k : α} {v : β} {l : List (α × β)}
    (h : x ∈ setk k v l) : x = (k, v) ∨ x ∈ l := by
  induction l with
  | nil => simpa [setk] using h
  | cons hd tl ih =>
    obtain ⟨a, b⟩ := hd
    by_cases hak : a = k
    · subst hak
      simp [setk] at h
      rcases h with h | h
      · exact Or.inl (by simp [h])
      · exact Or.inr (List.mem_cons_of_mem _ h)
    · simp [setk, hak] at h
      rcases h with h | h
      · exact Or.inr (by simp [h])
      · rcases ih h with h2 | h2
        · exact Or.inl h2
        · exact Or.inr (List.mem_cons_of_mem _ h2)

theorem setk_of_not_mem [DecidableEq α] {k : α} {l : List (α × β)}
    (h : k ∉ keysOf l) (v : β) : setk k v l = l ++ [(k, v)] := by
  induction l with
  | nil => simp [setk]
  | cons hd tl ih =>
    obtain ⟨a, b⟩ := hd
    have h1 : a ≠ k := by
      intro he
      exact h (by simp [he])
    have h2 : k ∉ keysOf tl := by
      intro hm
      exact h (by simp [hm])
    simp [setk, h1, ih h2]

theorem dealHands_join (n : Nat) (ps : List PlayerId) (ws : List CardId) :
    (((dealHands n ps ws).1.map Prod.snd).flatten) ++ (dealHands n ps ws).2 = ws := by
  induction ps generalizing ws with
  | nil => simp [dealHands]
  | cons p pt ih =>
    simp only [dealHands, List.map_cons, List.flatten_cons, List.append_assoc]
    rw [ih (ws.drop n)]
    exact List.take_append_drop n ws

/-! ### Concrete fixtures -/

def readyPlayer : GamePlayer :=
  { status := PlayerStatus.ready, isHost := false, score := 0 }

def hostPlayer : GamePlayer :=
  { status := PlayerStatus.joined, isHost := true, score := 0 }

/-- Scenario E's lobby: host `p1` and ready players `p2`, `p3`, configured
hand size 5, one judging cycle per player. -/
def lobbyE : GameState :=
  { status := GameStatus.lobby, hostId := "p1",
    settings := { roundsPerPlayer := 1, cardsPerPlayer := some 5, minPlayers := none },
    players := [("p1", hostPlayer), ("p2", readyPlayer), ("p3", readyPlayer)],
    currentRound := 0, currentDealerId := "",
    rounds := [], playerHands := [], cardDeck := ⟨[], [], [], []⟩,
    playedBlackCards := [] }

/-- Ten distinct answer-card ids: fewer than the 15 scenario E requires. -/
def wsTen : List CardId :=
  ["w1", "w2", "w3", "w4", "w5", "w6", "w7", "w8", "w9", "w10"]

/-- Twenty-one distinct answer-card ids: enough for either dealing rule. -/
def wsTwentyOne : List CardId :=
  ["w1", "w2", "w3", "w4", "w5", "w6", "w7", "w8", "w9", "w10", "w11",
   "w12", "w13", "w14", "w15", "w16", "w17", "w18", "w19", "w20", "w21"]

/-- A catalog in which every prompt card has pick count 1. -/
def pickConst : CardId → Nat := fun _ => 1

/-! ### C5 -/

/-- C5 (code_bug evaluation): with 3 players and only 10 answer cards the
engine's `startGame` SUCCEEDS, commits `status = PLAYING` and silently
truncated hands of sizes 7, 3 and 0 — there is no exhaustion check — while
the newer `startGame` revision fails the white-card sufficiency check
before writing anything, as the claim requires. -/
theorem startGame_truncates_short_deck :
    ((startGame lobbyE "p1" ["b1"] wsTen 0 pickConst).map
        (fun s2 => (s2.status, s2.playerHands.map (fun pp => (pp.1, pp.2.length))))
      = Except.ok (GameStatus.playing, [("p1", 7), ("p2", 3), ("p3", 0)])) ∧
    startGameV2 lobbyE "p1" ["b1"] wsTen
      = Except.error GameplayError.insufficientWhiteCards := by
  constructor
  · rfl
  · rfl

/-! ### C6 -/

/-- C6 (code_bug evaluation): with `settings.cardsPerPlayer = 5` and an
amply sized deck, the engine's `startGame` deals every player exactly 7
cards — a fixed constant, not the configured value — while the newer
revision deals the configured 5. -/
theorem startGame_ignores_configured_hand_size :
    lobbyE.settings.cardsPerPlayer = some 5 ∧
    ((startGame lobbyE "p1" ["b1"] wsTwentyOne 0 pickConst).map
        (fun s2 => s2.playerHands.map (fun pp => (pp.1, pp.2.length)))
      = Except.ok [("p1", 7), ("p2", 7), ("p3", 7)]) ∧
    ((startGameV2 lobbyE "p1" ["b1"] wsTwentyOne).map
        (fun out => out.playerHands.map (fun pp => (pp.1, pp.2.length)))
      = Except.ok [("p1", 5), ("p2", 5), ("p3", 5)]) ∧
    (7 : Nat) ≠ 5 := by
  refine ⟨rfl, rfl, rfl, ?_⟩
  decide

/-! ### C7 -/

/-- C7 counterexample: two `startGame` runs from the same pre-start state,
differing only in the `Math.random` draw, select different initial judges
(`p1` for draw 0, `p2` for draw 1), refuting both the deterministic
first-player rule and run-to-run reproducibility. -/
theorem initial_judge_not_deterministic :
    (startGame lobbyE "p1" ["b1"] wsTwentyOne 0 pickConst).map
        (fun s2 => s2.currentDealerId) = Except.ok "p1" ∧
    (startGame lobbyE "p1" ["b1"] wsTwentyOne 1 pickConst).map
        (fun s2 => s2.currentDealerId) = Except.ok "p2" ∧
    ("p2" : PlayerId) ≠ "p1" := by
  refine ⟨rfl, rfl, ?_⟩
  decide

/-- C7 amended: the engine draws the initial judge at the random index
`rIdx` into the player list (join order) — a function of the random draw,
not of the game state alone — whereas the newer `startGame` revision
deterministically picks the first player in join order. -/
theorem initial_judge_random_index (s : GameState) (hostId : PlayerId)
    (bs ws : List CardId) (rIdx : Nat) (pickOf : CardId → Nat)
    (s2 : GameState) (out : StartGameV2Out) :
    (startGame s hostId bs ws rIdx pickOf = .ok s2 →
      s2.currentDealerId =
        (keysOf s.players).getD (rIdx % (keysOf s.players).length) "") ∧
    (startGameV2 s hostId bs ws = .ok out →
      out.currentJudgeId = (keysOf s.players).getD 0 "") := by
  constructor
  · intro h
    obtain ⟨-, -, -, b, bsRest, -, -, hpost⟩ := startGame_ok h
    subst hpost
    rfl
  · intro h
    unfold startGameV2 at h
    split at h
    · exact Except.noConfusion h
    split at h
    · exact Except.noConfusion h
    split at h
    · exact Except.noConfusion h
    split at h
    · exact Except.noConfusion h
    cases h
    rfl

/-- The state the engine commits when starting `lobbyE` with random draw 1. -/
def startedE : GameState := startPost lobbyE "b1" [] wsTwentyOne 1 pickConst

/-- The output of the newer revision on the same lobby. -/
def v2OutE : StartGameV2Out :=
  { currentJudgeId := "p1", firstRoundPhase := RoundPhase.submitting,
    playerHands := (dealHands 5 (keysOf lobbyE.players) wsTwentyOne).1,
    status := GameStatus.playing }

/-- C7 amended, witnessed at the concrete lobby: draw 1 selects the second
player `p2`; the newer revision selects the first player `p1`. -/
theorem initial_judge_random_index_witness :
    startedE.currentDealerId = "p2" ∧ v2OutE.currentJudgeId = "p1" := by
  have h := initial_judge_random_index lobbyE "p1" ["b1"] wsTwentyOne 1 pickConst
    startedE v2OutE
  refine ⟨?_, ?_⟩
  · rw [h.1 rfl]
    rfl
  · rw [h.2 rfl]
    rfl

/-! ### Mid-game fixtures -/

def playingPlayer : GamePlayer :=
  { status := PlayerStatus.playing, isHost := false, score := 0 }

def subOfP2 : PlayerSubmission := ⟨"p2", ["c1"], 500⟩

/-- Round 1 in the Submitting phase, judge `p1`, submission deadline 100. -/
def roundSubmitting : GameRound :=
  { roundNumber := 1, phase := RoundPhase.submitting, blackCard := ⟨"b1", 1⟩,
    dealerId := "p1", submissions := [], winnerId := none,
    submissionDeadline := some 100 }

/-- A mid-game state: 3 players, judge `p1`, round 1 Submitting. -/
def gameSubmitting : GameState :=
  { status := GameStatus.playing, hostId := "p1",
    settings := { roundsPerPlayer := 2, cardsPerPlayer := none, minPlayers := none },
    players := [("p1", { playingPlayer with isHost := true }),
                ("p2", playingPlayer), ("p3", playingPlayer)],
    currentRound := 1, currentDealerId := "p1",
    rounds := [(1, roundSubmitting)],
    playerHands := [("p1", ["a1", "a2"]), ("p2", ["c1", "c2"]), ("p3", ["d1", "d2"])],
    cardDeck := ⟨["b2", "b3"], ["e1", "e2", "e3"], [], []⟩,
    playedBlackCards := ["b1"] }

/-- The same round after `p2`'s submission, now in the Judging phase. -/
def roundJudging : GameRound :=
  { roundSubmitting with
    phase := RoundPhase.judging
    submissions := [("p2", subOfP2)] }

def gameJudging : GameState := { gameSubmitting with rounds := [(1, roundJudging)] }

/-! ### C9 -/

/-- C9 counterexample: the judge `p1` calling `submitCards` while the round
is in the Judging phase (not Submitting) receives the judge error
`dealerCannotSubmit`, not the phase error — the engine checks the dealer
before the phase, contradicting the claimed (a)-before-(b) order. -/
theorem judge_error_precedes_phase_error :
    gameJudging.currentDealerId = "p1" ∧
    (alookup 1 gameJudging.rounds).map (fun r => r.phase) = some RoundPhase.judging ∧
    submitCards gameJudging "p1" 1 ["a1"] 0
      = Except.error GameplayError.dealerCannotSubmit ∧
    GameplayError.dealerCannotSubmit ≠ GameplayError.notSubmittingPhase := by
  refine ⟨rfl, rfl, rfl, ?_⟩
  decide

/-- C9 amended: for a caller that passes the game-level checks (game
playing, current round, player in the game) the engine validates in the
order: (b) caller is not the dealer, (a) round in Submitting phase,
(c) no existing submission, (d) all ids in hand, (e) id count equals the
pick count — each failure returning its error before any write. -/
theorem submitCards_validation_order (s : GameState) (p : PlayerId) (rn : Nat)
    (cs : List CardId) (now : Nat) (round : GameRound)
    (hstat : s.status = GameStatus.playing) (hcur : s.currentRound = rn)
    (hp : (alookup p s.players).isNone = false) :
    (s.currentDealerId = p →
      submitCards s p rn cs now = .error .dealerCannotSubmit) ∧
    (s.currentDealerId ≠ p → alookup rn s.rounds = some round →
      round.phase ≠ RoundPhase.submitting →
      submitCards s p rn cs now = .error .notSubmittingPhase) ∧
    (s.currentDealerId ≠ p → alookup rn s.rounds = some round →
      round.phase = RoundPhase.submitting →
      (alookup p round.submissions).isSome = true →
      submitCards s p rn cs now = .error .alreadySubmitted) ∧
    (s.currentDealerId ≠ p → alookup rn s.rounds = some round →
      round.phase = RoundPhase.submitting →
      (alookup p round.submissions).isSome = false →
      cs.all (fun c => decide (c ∈ (alookup p s.playerHands).getD [])) = false →
      submitCards s p rn cs now = .error .cardNotInHand) ∧
    (s.currentDealerId ≠ p → alookup rn s.rounds = some round →
      round.phase = RoundPhase.submitting →
      (alookup p round.submissions).isSome = false →
      cs.all (fun c => decide (c ∈ (alookup p s.playerHands).getD [])) = true →
      cs.length ≠ round.blackCard.pick →
      submitCards s p rn cs now = .error .wrongCardCount) := by
  refine ⟨?_, ?_, ?_, ?_, ?_⟩
  · intro hd
    unfold submitCards
    simp [hstat, hcur, hp, hd]
  · intro hd hround hph
    unfold submitCards
    simp [hstat, hcur, hp, hd, hround, hph]
  · intro hd hround hph hsome
    unfold submitCards
    simp [hstat, hcur, hp, hd, hround, hph, hsome]
  · intro hd hround hph hsome hall
    unfold submitCards
    simp [hstat, hcur, hp, hd, hround, hph, hsome, hall]
  · intro hd hround hph hsome hall hlen
    unfold submitCards
    simp [hstat, hcur, hp, hd, hround, hph, hsome, hall, hlen]

/-- C9 amended, witnessed: the dealer branch at the concrete judging state
(the same evaluation the counterexample exhibits, via the order theorem). -/
theorem submitCards_validation_order_witness :
    submitCards gameJudging "p1" 1 ["a1"] 0
      = Except.error GameplayError.dealerCannotSubmit :=
  (submitCards_validation_order gameJudging "p1" 1 ["a1"] 0 roundJudging
    rfl rfl rfl).1 rfl

/-! ### C2 -/

/-- The deadline half of claim C2 as stated: if a submission is accepted
after the round's `submissionDeadline` has elapsed, the round (with the
late-or-missing players excluded) moves to the Judging phase. -/
def ClaimDeadlineAdvances : Prop :=
  ∀ (s : GameState) (p : PlayerId) (rn : Nat) (cs : List CardId) (now : Nat)
    (s2 : GameState) (round : GameRound) (dl : Nat),
    submitCards s p rn cs now = Except.ok s2 →
    alookup rn s.rounds = some round →
    round.submissionDeadline = some dl →
    dl < now →
    (alookup rn s2.rounds).map (fun r => r.phase) = some RoundPhase.judging

/-- C2 counterexample: in `gameSubmitting` the deadline (100) is long past
when `p2` submits at time 500 and `p3` has not submitted, yet the round
stays in the Submitting phase — no code path reads `submissionDeadline`, so
there is no deadline-driven transition or exclusion. -/
theorem deadline_transition_refuted : ¬ ClaimDeadlineAdvances := by
  intro hcl
  have h := hcl gameSubmitting "p2" 1 ["c1"] 500
    (submitPost gameSubmitting "p2" 1 ["c1"] 500 roundSubmitting)
    roundSubmitting 100 rfl rfl rfl (by decide)
  exact absurd h (by decide)

theorem isSome_false_eq_none {γ : Type _} {o : Option γ} (h : o.isSome = false) :
    o = none := by
  cases o
  · rfl
  · simp at h

theorem alookup_ne_none_mem [DecidableEq α] {k : α} {l : List (α × β)}
    (h : ¬ alookup k l = none) : k ∈ keysOf l := by
  by_contra hk
  exact h (alookup_eq_none.mpr hk)

/-- C2 amended: after any accepted submission, the round is in the Judging
phase exactly when every non-judge player has a submission — the engine
compares the submission count (pre-state count plus the new one) with the
non-dealer player count when a submission is accepted; this is the ONLY
transition into Judging, there being no deadline mechanism. -/
theorem judging_transition_iff_all_submitted (s : GameState) (p : PlayerId)
    (rn : Nat) (cs : List CardId) (now : Nat) (s2 : GameState)
    (round round2 : GameRound)
    (h : submitCards s p rn cs now = .ok s2)
    (hround : alookup rn s.rounds = some round)
    (hpn : (keysOf s.players).Nodup)
    (hkeys : (keysOf round.submissions).Nodup)
    (hsub : ∀ q ∈ keysOf round.submissions,
      q ∈ keysOf s.players ∧ q ≠ s.currentDealerId)
    (hr2 : alookup rn s2.rounds = some round2) :
    round2.phase = RoundPhase.judging ↔
      ∀ q ∈ keysOf s.players, q ≠ s.currentDealerId →
        q ∈ keysOf round2.submissions := by
  obtain ⟨-, -, hpnone, hdne, round', hround', hphase, hnosub, -, -, hpost⟩ :=
    submitCards_ok h
  rw [hround] at hround'
  have hrr : round = round' := Option.some.inj hround'
  subst hrr
  subst hpost
  rw [show (submitPost s p rn cs now round).rounds
      = setk rn (submitRound s p cs now round) s.rounds from rfl,
    alookup_setk_self] at hr2
  have hr2e : round2 = submitRound s p cs now round := (Option.some.inj hr2).symm
  subst hr2e
  have hpK0 : p ∉ keysOf round.submissions :=
    alookup_eq_none.mp (isSome_false_eq_none hnosub)
  have hK : keysOf (submitRound s p cs now round).submissions
      = keysOf round.submissions ++ [p] := by
    rw [show (submitRound s p cs now round).submissions
        = setk p ⟨p, cs, now⟩ round.submissions from rfl,
      setk_of_not_mem hpK0]
    simp [keysOf]
  have hmemN : ∀ q, q ∈ (keysOf s.players).filter
      (fun id => decide (id ≠ s.currentDealerId)) ↔
      (q ∈ keysOf s.players ∧ q ≠ s.currentDealerId) := by
    intro q
    simp [List.mem_filter]
  have hpP : p ∈ keysOf s.players := by
    refine alookup_ne_none_mem ?_
    intro hn
    rw [hn] at hpnone
    simp at hpnone
  have hKsubN : ∀ q ∈ keysOf round.submissions ++ [p],
      q ∈ (keysOf s.players).filter (fun id => decide (id ≠ s.currentDealerId)) := by
    intro q hq
    rcases List.mem_append.mp hq with hq | hq
    · exact (hmemN q).mpr (hsub q hq)
    · have hqp : q = p := by simpa using hq
      subst hqp
      exact (hmemN q).mpr ⟨hpP, Ne.symm hdne⟩
  have hKnodup : (keysOf round.submissions ++ [p]).Nodup := by
    rw [List.nodup_append]
    refine ⟨hkeys, List.nodup_singleton p, ?_⟩
    intro a ha hb
    rw [List.mem_singleton] at hb
    subst hb
    exact hpK0 ha
  have hNnodup : ((keysOf s.players).filter
      (fun id => decide (id ≠ s.currentDealerId))).Nodup := hpn.filter _
  have hphEq : (submitRound s p cs now round).phase
      = if (keysOf round.submissions).length + 1 =
          ((keysOf s.players).filter (fun id => decide (id ≠ s.currentDealerId))).length
        then RoundPhase.judging else round.phase := rfl
  constructor
  · intro hj
    have hcond : (keysOf round.submissions).length + 1 =
        ((keysOf s.players).filter (fun id => decide (id ≠ s.currentDealerId))).length := by
      by_contra hc
      rw [hphEq, if_neg hc, hphase] at hj
      exact absurd hj (by decide)
    have hsp := List.subperm_of_subset hKnodup hKsubN
    have hlen : ((keysOf s.players).filter
        (fun id => decide (id ≠ s.currentDealerId))).length ≤
        (keysOf round.submissions ++ [p]).length := by
      simp only [List.length_append, List.length_singleton]
      omega
    have hperm := hsp.perm_of_length_le hlen
    intro q hqP hqd
    rw [hK]
    exact hperm.mem_iff.mpr ((hmemN q).mpr ⟨hqP, hqd⟩)
  · intro hall
    have hNsubK : ∀ q ∈ (keysOf s.players).filter
        (fun id => decide (id ≠ s.currentDealerId)),
        q ∈ keysOf round.submissions ++ [p] := by
      intro q hq
      obtain ⟨hq1, hq2⟩ := (hmemN q).mp hq
      have hmem := hall q hq1 hq2
      rwa [hK] at hmem
    have h1 := (List.subperm_of_subset hKnodup hKsubN).length_le
    have h2 := (List.subperm_of_subset hNnodup hNsubK).length_le
    have hcond : (keysOf round.submissions).length + 1 =
        ((keysOf s.players).filter (fun id => decide (id ≠ s.currentDealerId))).length := by
      simp only [List.length_append, List.length_singleton] at h1 h2
      omega
    rw [hphEq, if_pos hcond]

/-- A Submitting-phase round in which `p2` has already submitted. -/
def roundOneSub : GameRound :=
  { roundSubmitting with submissions := [("p2", subOfP2)] }

def gameOneSub : GameState := { gameSubmitting with rounds := [(1, roundOneSub)] }

/-- C2 amended, witnessed: when the last missing non-judge player `p3`
submits, the round moves to Judging. -/
theorem judging_transition_iff_all_submitted_witness :
    (submitRound gameOneSub "p3" ["d1"] 600 roundOneSub).phase
      = RoundPhase.judging :=
  (judging_transition_iff_all_submitted gameOneSub "p3" 1 ["d1"] 600
    (submitPost gameOneSub "p3" 1 ["d1"] 600 roundOneSub) roundOneSub
    (submitRound gameOneSub "p3" ["d1"] 600 roundOneSub)
    rfl rfl (by decide) (by decide) (by decide) rfl).mpr (by decide)

/-! ### C3 -/

/-- Claim C3 as stated: EVERY `selectWinner` call that passes validation —
the caller is the round's judge (dealer), the round is in the Judging
phase, `winnerId` keys an existing submission — commits: it sets the
round's winner, increments that player's score, and completes the round. -/
def ClaimValidatedSelectWinnerCommits : Prop :=
  ∀ (s : GameState) (d : PlayerId) (rn : Nat) (w : PlayerId) (rs : List Nat)
    (refetch : List CardId) (pickOf : CardId → Nat) (round : GameRound),
    s.status = GameStatus.playing → s.currentRound = rn →
    s.currentDealerId = d →
    alookup rn s.rounds = some round → round.phase = RoundPhase.judging →
    (alookup w round.submissions).isSome = true →
    ∃ s2, selectWinner s d rn w rs refetch pickOf = .ok s2 ∧
      (alookup rn s2.rounds).map (fun r => (r.winnerId, r.phase))
        = some (some w, RoundPhase.complete) ∧
      (alookup w s2.players).map (fun pl => pl.score)
        = (alookup w s.players).map (fun pl => pl.score + 1)

/-- The judging state with the black-card pool exhausted: the stored pool
is empty and the re-query yields nothing unplayed. -/
def gameJudgingNoBlack : GameState :=
  { gameJudging with cardDeck := ⟨[], ["e1", "e2", "e3"], [], []⟩ }

/-- C3 counterexample: a call passing all three validation checks (judge
`p1` calling, round 1 in Judging, winner `p2` keys a submission) on a
non-final round (1 of 6) with an exhausted black pool throws inside the
transaction ("Ran out of unique black cards"), aborting the staged
winnerId/score/COMPLETE writes — the operation returns the out-of-cards
error and sets nothing, refuting the claim as stated. -/
theorem validated_selectWinner_can_abort : ¬ ClaimValidatedSelectWinnerCommits := by
  intro hcl
  obtain ⟨s2, hok, -⟩ := hcl gameJudgingNoBlack "p1" 1 "p2" [0] [] pickConst
    roundJudging rfl rfl rfl rfl rfl rfl
  rw [show selectWinner gameJudgingNoBlack "p1" 1 "p2" [0] [] pickConst
      = .error .outOfBlackCards from rfl] at hok
  exact Except.noConfusion hok

/-- C3 amended: a validated `selectWinner` whose transaction commits sets
the round's `winnerId` to the chosen player, increments exactly that
player's score by exactly 1 (all other players untouched), and moves the
round's phase to Complete in the one transactional commit ("Revealing then
immediately Complete": the engine never exposes an intermediate Revealing
state).  The transaction fails to commit in exactly one validated case: on
a non-final round whose black-card draw finds no unplayed card, the whole
transaction aborts with the out-of-black-cards error and none of the staged
writes take effect. -/
theorem selectWinner_sets_winner_score_complete (s : GameState) (d : PlayerId)
    (rn : Nat) (w : PlayerId) (rs : List Nat) (refetch : List CardId)
    (pickOf : CardId → Nat) (s2 : GameState) (round : GameRound) :
    (selectWinner s d rn w rs refetch pickOf = .ok s2 →
      (alookup rn s2.rounds).map (fun r => r.winnerId) = some (some w) ∧
      (alookup rn s2.rounds).map (fun r => r.phase) = some RoundPhase.complete ∧
      (alookup w s2.players).map (fun pl => pl.score)
        = (alookup w s.players).map (fun pl => pl.score + 1) ∧
      (∀ q, q ≠ w → alookup q s2.players = alookup q s.players)) ∧
    (s.status = GameStatus.playing → s.currentRound = rn →
      s.currentDealerId = d →
      alookup rn s.rounds = some round → round.phase = RoundPhase.judging →
      (alookup w round.submissions).isSome = true →
      ¬ s.settings.roundsPerPlayer * s.players.length ≤ rn →
      pickBlack (blackPool s refetch) s.playedBlackCards rs 0 = none →
      selectWinner s d rn w rs refetch pickOf = .error .outOfBlackCards) := by
  constructor
  · intro h
    obtain ⟨-, -, -, round2, -, -, -, hbr⟩ := selectWinner_ok h
    have hplayers : s2.players = scoreWinner w s.players := by
      rcases hbr with ⟨-, hpost⟩ | ⟨-, c, deckAfter, -, hpost⟩ <;> subst hpost <;> rfl
    have hlook : alookup rn s2.rounds = some (completeRound round2 w) := by
      rcases hbr with ⟨-, hpost⟩ | ⟨-, c, deckAfter, -, hpost⟩ <;> subst hpost
      · exact alookup_setk_self rn _ s.rounds
      · rw [show (selectWinnerNext s d rn w round2 c deckAfter pickOf).rounds
            = setk (rn + 1) (nextRoundOf s d rn c pickOf)
                (setk rn (completeRound round2 w) s.rounds) from rfl,
          alookup_setk_ne (Nat.succ_ne_self rn)]
        exact alookup_setk_self rn _ s.rounds
    refine ⟨?_, ?_, ?_, ?_⟩
    · rw [hlook]
      rfl
    · rw [hlook]
      rfl
    · rw [hplayers, show scoreWinner w s.players
          = updk w (fun pl => { pl with score := pl.score + 1 }) s.players from rfl,
        alookup_updk_self]
      cases alookup w s.players <;> rfl
    · intro q hq
      rw [hplayers, show scoreWinner w s.players
          = updk w (fun pl => { pl with score := pl.score + 1 }) s.players from rfl,
        alookup_updk_ne (Ne.symm hq)]
  · intro hstat hcur hdlr hround hph hsome hlt hpick
    have hnone : (alookup w round.submissions).isNone = false := by
      cases halook : alookup w round.submissions with
      | none =>
        rw [halook] at hsome
        simp at hsome
      | some v => simp
    unfold selectWinner
    rw [if_neg (by simp [hstat]), if_neg (by simp [hcur]),
      if_neg (by simp [hdlr]), hround]
    dsimp only
    rw [if_neg (by simp [hph]), if_neg (by simp [hnone]), if_neg hlt, hpick]

/-- A judging state on the final round (round 6 of 2 rounds per player × 3
players), so that selecting the winner ends the game. -/
def gameLastRound : GameState :=
  { gameJudging with currentRound := 6, rounds := [(6, roundJudging)] }

/-- C3 amended, witnessed: on the final round the committing half records
winner `p2`, completes the round, increments `p2`'s score and leaves `p3`
untouched; on the exhausted-pool judging state the aborting half returns
the out-of-black-cards error. -/
theorem selectWinner_sets_winner_score_complete_witness :
    (alookup 6 (selectWinnerEnded gameLastRound 6 "p2" roundJudging).rounds).map
        (fun r => r.winnerId) = some (some "p2") ∧
    (alookup 6 (selectWinnerEnded gameLastRound 6 "p2" roundJudging).rounds).map
        (fun r => r.phase) = some RoundPhase.complete ∧
    (alookup "p2" (selectWinnerEnded gameLastRound 6 "p2" roundJudging).players).map
        (fun pl => pl.score)
      = (alookup "p2" gameLastRound.players).map (fun pl => pl.score + 1) ∧
    alookup "p3" (selectWinnerEnded gameLastRound 6 "p2" roundJudging).players
      = alookup "p3" gameLastRound.players ∧
    selectWinner gameJudgingNoBlack "p1" 1 "p2" [0] [] pickConst
      = .error .outOfBlackCards := by
  have h := (selectWinner_sets_winner_score_complete gameLastRound "p1" 6 "p2"
    [] [] pickConst (selectWinnerEnded gameLastRound 6 "p2" roundJudging)
    roundJudging).1 rfl
  have h2 := (selectWinner_sets_winner_score_complete gameJudgingNoBlack "p1" 1 "p2"
    [0] [] pickConst gameJudgingNoBlack roundJudging).2
    rfl rfl rfl rfl rfl rfl (by decide) rfl
  exact ⟨h.1, h.2.1, h.2.2.1, h.2.2.2 "p3" (by decide), h2⟩

/-! ### C4 -/

/-- C4: the game's total round count is `roundsPerPlayer * playerCount`.
When a round whose number has reached that total completes, the status
becomes Ended, no next round is created and the round counter stays put;
below the total a next round IS created and play continues.  Once the
status is Ended, both `submitCards` and `selectWinner` fail (game not in
playing state) before writing anything. -/
theorem game_end_detection (s : GameState) (d w : PlayerId) (rn : Nat)
    (rs : List Nat) (refetch : List CardId) (pickOf : CardId → Nat)
    (s2 : GameState) (p w2 : PlayerId) (rn2 now : Nat) (cs : List CardId) :
    (selectWinner s d rn w rs refetch pickOf = .ok s2 →
      s.settings.roundsPerPlayer * s.players.length ≤ rn →
      s2.status = GameStatus.ended ∧
      alookup (rn + 1) s2.rounds = alookup (rn + 1) s.rounds ∧
      s2.currentRound = s.currentRound) ∧
    (selectWinner s d rn w rs refetch pickOf = .ok s2 →
      ¬ s.settings.roundsPerPlayer * s.players.length ≤ rn →
      s2.status = s.status ∧
      (alookup (rn + 1) s2.rounds).isSome = true ∧
      s2.currentRound = rn + 1) ∧
    (s.status = GameStatus.ended →
      submitCards s p rn2 cs now = .error .gameNotPlaying ∧
      selectWinner s d rn2 w2 rs refetch pickOf = .error .gameNotPlaying) := by
  refine ⟨?_, ?_, ?_⟩
  · intro h hge
    obtain ⟨-, -, -, round, -, -, -, hbr⟩ := selectWinner_ok h
    rcases hbr with ⟨-, hpost⟩ | ⟨hlt, -, -, -, -⟩
    · subst hpost
      refine ⟨rfl, ?_, rfl⟩
      exact alookup_setk_ne (Nat.succ_ne_self rn).symm _ s.rounds
    · exact absurd hge hlt
  · intro h hlt
    obtain ⟨-, -, -, round, -, -, -, hbr⟩ := selectWinner_ok h
    rcases hbr with ⟨hge, -⟩ | ⟨-, c, deckAfter, -, hpost⟩
    · exact absurd hge hlt
    · subst hpost
      refine ⟨rfl, ?_, rfl⟩
      rw [show (selectWinnerNext s d rn w round c deckAfter pickOf).rounds
          = setk (rn + 1) (nextRoundOf s d rn c pickOf)
              (setk rn (completeRound round w) s.rounds) from rfl,
        alookup_setk_self]
      rfl
  · intro hend
    constructor
    · unfold submitCards
      simp [hend]
    · unfold selectWinner
      simp [hend]

/-- A finished game: every action must be rejected. -/
def gameEnded : GameState := { gameJudging with status := GameStatus.ended }

/-- C4 witnessed: completing round 6 of 6 ends the game and creates no
round 7; on the ended game both operations fail. -/
theorem game_end_detection_witness :
    (selectWinnerEnded gameLastRound 6 "p2" roundJudging).status = GameStatus.ended ∧
    alookup 7 (selectWinnerEnded gameLastRound 6 "p2" roundJudging).rounds
      = alookup 7 gameLastRound.rounds ∧
    submitCards gameEnded "p2" 1 ["c1"] 0 = .error .gameNotPlaying ∧
    selectWinner gameEnded "p1" 1 "p2" [] [] pickConst = .error .gameNotPlaying := by
  have h1 := (game_end_detection gameLastRound "p1" "p2" 6 [] [] pickConst
    (selectWinnerEnded gameLastRound 6 "p2" roundJudging) "p2" "p2" 6 0 ["c1"]).1
    rfl (by decide)
  have h2 := (game_end_detection gameEnded "p1" "p2" 1 [] [] pickConst
    gameEnded "p2" "p2" 1 0 ["c1"]).2.2 rfl
  exact ⟨h1.1, h1.2.1, h2.1, h2.2⟩

/-! ### C8 -/

/-- C8: whenever completing a round starts a new round, the next judge is
the player immediately after the previous judge in the fixed player order,
wrapping from the last back to the first (`(indexOf(dealer) + 1) %
playerCount`); the new round carries that judge, and the value is the pure
function `nextDealerIdOf` of the player ordering and the previous judge. -/
theorem judge_rotation_cyclic (s : GameState) (d : PlayerId) (rn : Nat)
    (w : PlayerId) (rs : List Nat) (refetch : List CardId)
    (pickOf : CardId → Nat) (s2 : GameState) (i : Nat)
    (h : selectWinner s d rn w rs refetch pickOf = .ok s2)
    (hlt : ¬ s.settings.roundsPerPlayer * s.players.length ≤ rn)
    (hi : idxOf d (keysOf s.players) = some i) :
    s2.currentDealerId
      = (keysOf s.players).getD ((i + 1) % (keysOf s.players).length) "" ∧
    (alookup (rn + 1) s2.rounds).map (fun r => r.dealerId)
      = some s2.currentDealerId ∧
    s2.currentDealerId = nextDealerIdOf (keysOf s.players) d := by
  obtain ⟨-, -, -, round, -, -, -, hbr⟩ := selectWinner_ok h
  rcases hbr with ⟨hge, -⟩ | ⟨-, c, deckAfter, -, hpost⟩
  · exact absurd hge hlt
  · subst hpost
    have hcd : (selectWinnerNext s d rn w round c deckAfter pickOf).currentDealerId
        = nextDealerIdOf (keysOf s.players) d := rfl
    refine ⟨?_, ?_, hcd⟩
    · rw [hcd]
      unfold nextDealerIdOf
      rw [hi]
    · rw [show (selectWinnerNext s d rn w round c deckAfter pickOf).rounds
          = setk (rn + 1) (nextRoundOf s d rn c pickOf)
              (setk rn (completeRound round w) s.rounds) from rfl,
        alookup_setk_self]
      rfl

/-- C8 witnessed: completing round 1 with judge `p1` hands the next round
to `p2`, the next player in join order. -/
theorem judge_rotation_cyclic_witness :
    (selectWinnerNext gameJudging "p1" 1 "p2" roundJudging "b2" ["b3"]
      pickConst).currentDealerId = "p2" ∧
    (alookup 2 (selectWinnerNext gameJudging "p1" 1 "p2" roundJudging "b2" ["b3"]
      pickConst).rounds).map (fun r => r.dealerId) = some "p2" := by
  have h := judge_rotation_cyclic gameJudging "p1" 1 "p2" [0] [] pickConst
    (selectWinnerNext gameJudging "p1" 1 "p2" roundJudging "b2" ["b3"] pickConst)
    0 rfl (by decide) rfl
  refine ⟨?_, ?_⟩
  · rw [h.1]
    rfl
  · rw [h.2.1, h.1]
    rfl

/-! ### C10: the judge never submits (inductive invariant) -/

theorem mem_keysOf {a : α} {l : List (α × β)} :
    a ∈ keysOf l ↔ ∃ b, (a, b) ∈ l := by
  constructor
  · intro h
    obtain ⟨x, hx, hfst⟩ := List.mem_map.mp h
    subst hfst
    exact ⟨x.2, hx⟩
  · rintro ⟨b, hb⟩
    exact List.mem_map.mpr ⟨(a, b), hb, rfl⟩

theorem keysOf_setk_mem [DecidableEq α] {a k : α} {v : β} {l : List (α × β)}
    (h : a ∈ keysOf (setk k v l)) : a = k ∨ a ∈ keysOf l := by
  obtain ⟨b, hb⟩ := mem_keysOf.mp h
  rcases mem_setk hb with he | hm
  · left
    exact congrArg Prod.fst he
  · right
    exact mem_keysOf.mpr ⟨b, hm⟩

/-- Invariant: no round's submissions object has the round's own dealer as
a key. -/
def RoundsJudgeClean (s : GameState) : Prop :=
  ∀ nr ∈ s.rounds, nr.2.dealerId ∉ keysOf nr.2.submissions

/-- Invariant: the current round's dealer agrees with `currentDealerId`. -/
def DealerMatches (s : GameState) : Prop :=
  ∀ round, alookup s.currentRound s.rounds = some round →
    round.dealerId = s.currentDealerId

theorem startGame_inv10 {s : GameState} {hostId : PlayerId} {bs ws : List CardId}
    {rIdx : Nat} {pickOf : CardId → Nat} {s2 : GameState}
    (h : startGame s hostId bs ws rIdx pickOf = .ok s2) :
    RoundsJudgeClean s2 ∧ DealerMatches s2 := by
  obtain ⟨-, -, -, b, bsRest, -, -, hpost⟩ := startGame_ok h
  subst hpost
  constructor
  · intro nr hnr
    have hnr2 : nr ∈ [(1, startRound1 s b rIdx pickOf)] := hnr
    have : nr = (1, startRound1 s b rIdx pickOf) := by simpa using hnr2
    subst this
    simp [startRound1, keysOf]
  · intro round hr
    have he : startRound1 s b rIdx pickOf = round := Option.some.inj hr
    rw [← he]
    rfl

theorem submitCards_inv10 {s : GameState} {p : PlayerId} {rn : Nat}
    {cs : List CardId} {now : Nat} {s2 : GameState}
    (hclean : RoundsJudgeClean s) (hmatch : DealerMatches s)
    (h : submitCards s p rn cs now = .ok s2) :
    RoundsJudgeClean s2 ∧ DealerMatches s2 := by
  obtain ⟨-, hcur, -, hdne, round, hround, -, -, -, -, hpost⟩ := submitCards_ok h
  subst hpost
  have hdeal : round.dealerId = s.currentDealerId := hmatch round (hcur ▸ hround)
  have hcleanr : round.dealerId ∉ keysOf round.submissions :=
    hclean (rn, round) (alookup_mem hround)
  constructor
  · intro nr hnr
    have hnr2 : nr ∈ setk rn (submitRound s p cs now round) s.rounds := hnr
    rcases mem_setk hnr2 with he | hm
    · subst he
      intro hmem
      have hmem2 : (submitRound s p cs now round).dealerId
          ∈ keysOf (setk p ⟨p, cs, now⟩ round.submissions) := hmem
      have hdid : (submitRound s p cs now round).dealerId = round.dealerId := rfl
      rw [hdid] at hmem2
      rcases keysOf_setk_mem hmem2 with he2 | hm2
      · rw [hdeal] at he2
        exact hdne he2
      · exact hcleanr hm2
    · exact hclean nr hm
  · intro round2 hr2
    have hcur2 : (submitPost s p rn cs now round).currentRound = rn := hcur
    rw [show (submitPost s p rn cs now round).rounds
        = setk rn (submitRound s p cs now round) s.rounds from rfl,
      hcur2, alookup_setk_self] at hr2
    have : round2 = submitRound s p cs now round := (Option.some.inj hr2).symm
    subst this
    exact hdeal

theorem selectWinner_inv10 {s : GameState} {d : PlayerId} {rn : Nat}
    {w : PlayerId} {rs : List Nat} {refetch : List CardId}
    {pickOf : CardId → Nat} {s2 : GameState}
    (hclean : RoundsJudgeClean s) (hmatch : DealerMatches s)
    (h : selectWinner s d rn w rs refetch pickOf = .ok s2) :
    RoundsJudgeClean s2 ∧ DealerMatches s2 := by
  obtain ⟨-, hcur, -, round, hround, -, -, hbr⟩ := selectWinner_ok h
  have hdeal : round.dealerId = s.currentDealerId := hmatch round (hcur ▸ hround)
  have hcleanr : round.dealerId ∉ keysOf round.submissions :=
    hclean (rn, round) (alookup_mem hround)
  have hcleanc : ∀ v, (rn, completeRound round w) = v ∨ v ∈ s.rounds →
      v.2.dealerId ∉ keysOf v.2.submissions := by
    rintro v (he | hm)
    · rw [← he]
      exact hcleanr
    · exact hclean v hm
  rcases hbr with ⟨-, hpost⟩ | ⟨-, c, deckAfter, -, hpost⟩ <;> subst hpost
  · constructor
    · intro nr hnr
      have hnr2 : nr ∈ setk rn (completeRound round w) s.rounds := hnr
      rcases mem_setk hnr2 with he | hm
      · exact hcleanc nr (Or.inl he.symm)
      · exact hclean nr hm
    · intro round2 hr2
      have hr2b : alookup s.currentRound
          (setk rn (completeRound round w) s.rounds) = some round2 := hr2
      rw [hcur, alookup_setk_self] at hr2b
      have : round2 = completeRound round w := (Option.some.inj hr2b).symm
      subst this
      exact hdeal
  · constructor
    · intro nr hnr
      have hnr2 : nr ∈ setk (rn + 1) (nextRoundOf s d rn c pickOf)
          (setk rn (completeRound round w) s.rounds) := hnr
      rcases mem_setk hnr2 with he | hm
      · subst he
        simp [nextRoundOf, keysOf]
      · rcases mem_setk hm with he2 | hm2
        · exact hcleanc nr (Or.inl he2.symm)
        · exact hclean nr hm2
    · intro round2 hr2
      have hr2b : alookup (rn + 1) (setk (rn + 1) (nextRoundOf s d rn c pickOf)
          (setk rn (completeRound round w) s.rounds)) = some round2 := hr2
      rw [alookup_setk_self] at hr2b
      have : round2 = nextRoundOf s d rn c pickOf := (Option.some.inj hr2b).symm
      subst this
      rfl

theorem reachable_inv10 {s : GameState} (h : Reachable s) :
    RoundsJudgeClean s ∧ DealerMatches s := by
  induction h with
  | init s hs =>
    constructor
    · intro nr hnr
      rw [hs.2.1] at hnr
      exact absurd hnr (List.not_mem_nil nr)
    · intro round hr
      rw [hs.2.1] at hr
      exact absurd hr (by simp [alookup])
  | start s hostId bs ws rIdx pickOf s2 hre hdeck hstep ih =>
    exact startGame_inv10 hstep
  | submit s p rn cs now s2 hre hstep ih =>
    exact submitCards_inv10 ih.1 ih.2 hstep
  | select s d rn w rs refetch pickOf s2 hre hstep ih =>
    exact selectWinner_inv10 ih.1 ih.2 hstep

/-- C10: in every reachable state, no round's submissions map has a key
equal to that round's judge (dealer) — the judge never submits, under any
sequence of `startGame`, `submitCards`, `selectWinner`. -/
theorem judge_never_submits (s : GameState) (h : Reachable s) (rn : Nat)
    (round : GameRound) (hr : alookup rn s.rounds = some round) :
    round.dealerId ∉ keysOf round.submissions :=
  (reachable_inv10 h).1 (rn, round) (alookup_mem hr)

/-- C10 witnessed on the reachable state right after `startGame`: round 1's
judge is not among its (empty) submission keys. -/
theorem judge_never_submits_witness :
    (startRound1 lobbyE "b1" 1 pickConst).dealerId
      ∉ keysOf (startRound1 lobbyE "b1" 1 pickConst).submissions :=
  judge_never_submits startedE
    (Reachable.start lobbyE "p1" ["b1"] wsTwentyOne 1 pickConst startedE
      (Reachable.init lobbyE ⟨rfl, rfl, rfl, rfl, rfl⟩)
      (by refine ⟨?_, ?_, ?_⟩ <;> decide) rfl)
    1 (startRound1 lobbyE "b1" 1 pickConst) rfl

/-! ### C1: no card id twice (inductive invariant) -/

/-- The multiset (as a list with multiplicity) of every card id referenced
by the game: every player's hand, every round's prompt (black) card, and
every submission's cards. -/
def allCardIds (s : GameState) : List CardId :=
  (s.playerHands.map Prod.snd).flatten ++
  s.rounds.map (fun nr => nr.2.blackCard.id) ++
  (s.rounds.map (fun nr =>
    (nr.2.submissions.map (fun ps => ps.2.cards)).flatten)).flatten

/-- Auxiliary invariant: every round the engine ever creates is in the
`DEALING` phase with empty submissions — no code path in the engine moves a
round from `DEALING` to `SUBMITTING`, so `submitCards` (which requires
`SUBMITTING`) and `selectWinner` (which requires `JUDGING`) never succeed
on a reachable state. -/
def AllDealingEmpty (s : GameState) : Prop :=
  ∀ nr ∈ s.rounds, nr.2.phase = RoundPhase.dealing ∧ nr.2.submissions = []

theorem reachable_c1 {s : GameState} (h : Reachable s) :
    AllDealingEmpty s ∧ (allCardIds s).Nodup := by
  induction h with
  | init s hs =>
    constructor
    · intro nr hnr
      rw [hs.2.1] at hnr
      exact absurd hnr (List.not_mem_nil nr)
    · have : allCardIds s = [] := by
        simp [allCardIds, hs.2.1, hs.2.2.1]
      rw [this]
      exact List.nodup_nil
  | start s hostId bs ws rIdx pickOf s2 hre hdeck hstep ih =>
    obtain ⟨-, -, -, b, bsRest, hbs, -, hpost⟩ := startGame_ok hstep
    subst hpost
    constructor
    · intro nr hnr
      have hnr2 : nr ∈ [(1, startRound1 s b rIdx pickOf)] := hnr
      have : nr = (1, startRound1 s b rIdx pickOf) := by simpa using hnr2
      subst this
      exact ⟨rfl, rfl⟩
    · have hACI : allCardIds (startPost s b bsRest ws rIdx pickOf)
          = (((dealHands 7 (keysOf s.players) ws).1.map Prod.snd).flatten) ++ [b] := by
        simp [allCardIds, startPost, startRound1]
      rw [hACI]
      have hjoin := dealHands_join 7 (keysOf s.players) ws
      have hws : ((((dealHands 7 (keysOf s.players) ws).1.map Prod.snd).flatten)
          ++ (dealHands 7 (keysOf s.players) ws).2).Nodup := by
        rw [hjoin]
        exact hdeck.2.1
      have hH : (((dealHands 7 (keysOf s.players) ws).1.map Prod.snd).flatten).Nodup :=
        (List.nodup_append.mp hws).1
      have hbw : b ∉ ws := by
        refine hdeck.2.2 b ?_
        rw [hbs]
        exact List.mem_cons_self b bsRest
      rw [List.nodup_append]
      refine ⟨hH, List.nodup_singleton b, ?_⟩
      intro a ha hb
      rw [List.mem_singleton] at hb
      subst hb
      apply hbw
      rw [← hjoin]
      exact List.mem_append_left _ ha
  | submit s p rn cs now s2 hre hstep ih =>
    obtain ⟨-, -, -, -, round, hround, hphase, -⟩ := submitCards_ok hstep
    have hph := (ih.1 (rn, round) (alookup_mem hround)).1
    rw [hphase] at hph
    exact absurd hph (by decide)
  | select s d rn w rs refetch pickOf s2 hre hstep ih =>
    obtain ⟨-, -, -, round, hround, hphase, -⟩ := selectWinner_ok hstep
    have hph := (ih.1 (rn, round) (alookup_mem hround)).1
    rw [hphase] at hph
    exact absurd hph (by decide)

/-- C1: in every reachable state, the multiset union of hands, prompt cards
and submission cards holds no card id twice, and in particular no card of a
player's current-round submission remains in (or returns to) that player's
hand.  (The submission half is immaculate for a degenerate reason: the
engine never moves a round out of `DEALING`, so no submission ever exists
in a reachable state; the hand half is carried by the disjoint
`splice`-dealt prefixes of the shuffled deck.) -/
theorem no_duplicate_cards (s : GameState) (h : Reachable s) :
    (allCardIds s).Nodup ∧
    ∀ rn round p sub c, alookup rn s.rounds = some round →
      alookup p round.submissions = some sub →
      c ∈ sub.cards → c ∉ (alookup p s.playerHands).getD [] := by
  obtain ⟨hAD, hnodup⟩ := reachable_c1 h
  refine ⟨hnodup, ?_⟩
  intro rn round p sub c hr hsub hc
  have hempty := (hAD (rn, round) (alookup_mem hr)).2
  rw [hempty] at hsub
  exact absurd hsub (by simp [alookup])

/-- C1 witnessed on the reachable state right after `startGame` dealt three
truncated-or-full hands from a 21-card pool: all referenced ids distinct. -/
theorem no_duplicate_cards_witness : (allCardIds startedE).Nodup :=
  (no_duplicate_cards startedE
    (Reachable.start lobbyE "p1" ["b1"] wsTwentyOne 1 pickConst startedE
      (Reachable.init lobbyE ⟨rfl, rfl, rfl, rfl, rfl⟩)
      (by refine ⟨?_, ?_, ?_⟩ <;> decide) rfl)).1

end SesGame
